import Mathlib

/-!
# Verification of the NBA/FPL Telegram bot engine

A shallow embedding, in Lean 4, of the deterministic core of the repository:

* `nba_predictions.py` — abbreviation normalization, the team-directory TTL
  cache, the per-(team, season, cutoff) win/loss history cache, the
  `last10 → last5 → home` tie-break chain, the per-matchup report loop and
  the 3500-character chunking of outgoing messages;
* `bot_test.py` — the weekly FPL filter/aggregate/rank pipeline.

Python strings are modelled as `List Char` / `String`; Python `dict`s as
association lists; the network layer as explicit oracles (`Except`-valued
for fallible fetches); module-level mutable caches as explicit state passed
in and out.  Python's `int`/float division in the ranking pipeline is
modelled over `ℚ`.
-/

namespace NBABot

/-! ## Character-level model of `str.upper` / `str.strip`

`normalize_abbr` in `nba_predictions.py` is
`(abbr or "").upper().strip()` followed by an `ABBR_FIX` table lookup.
`str.upper` is modelled per character by `Char.toUpper` (the inputs of
interest are ASCII abbreviations) and `str.strip` by removing leading and
trailing whitespace characters. -/

/-- Python `s.strip()`: remove leading and trailing whitespace. -/
def pyStrip (l : List Char) : List Char :=
  List.rdropWhile Char.isWhitespace (List.dropWhile Char.isWhitespace l)

/-- Python `s.upper()`, modelled per character (ASCII). -/
def pyUpper (l : List Char) : List Char :=
  l.map Char.toUpper

/-- The `ABBR_FIX` alias-correction table of `nba_predictions.py`
(`dict.get(abbr, abbr)` on a literal 8-entry dict). -/
def ABBR_FIX_get (s : String) : String :=
  if s = "GS" then "GSW"
  else if s = "SA" then "SAS"
  else if s = "NY" then "NYK"
  else if s = "WSH" then "WAS"
  else if s = "NO" then "NOP"
  else if s = "PHO" then "PHX"
  else if s = "BRK" then "BKN"
  else if s = "CHO" then "CHA"
  else s

/-- `normalize_abbr` from `nba_predictions.py`:
`abbr = (abbr or "").upper().strip(); return ABBR_FIX.get(abbr, abbr)`.
(`abbr or ""` only maps `None` to `""` and is the identity on every
actual string argument.) -/
def normalize_abbr (s : String) : String :=
  ABBR_FIX_get (String.mk (pyStrip (pyUpper s.data)))

/-! ### Character lemmas -/

theorem char_toNat_ofNat {n : Nat} (h : n < 55296) : (Char.ofNat n).toNat = n := by
  unfold Char.ofNat
  rw [dif_pos (Or.inl h)]
  rfl

theorem char_toUpper_eq (c : Char) :
    c.toUpper = if 97 ≤ c.toNat ∧ c.toNat ≤ 122 then Char.ofNat (c.toNat - 32) else c := rfl

theorem char_toUpper_toNat_of_lower {c : Char} (h1 : 97 ≤ c.toNat) (h2 : c.toNat ≤ 122) :
    c.toUpper.toNat = c.toNat - 32 := by
  rw [char_toUpper_eq, if_pos ⟨h1, h2⟩, char_toNat_ofNat (by omega)]

theorem char_toUpper_toUpper (c : Char) : c.toUpper.toUpper = c.toUpper := by
  by_cases h : 97 ≤ c.toNat ∧ c.toNat ≤ 122
  · have ht : c.toUpper.toNat = c.toNat - 32 := char_toUpper_toNat_of_lower h.1 h.2
    rw [char_toUpper_eq c.toUpper, if_neg (by rw [ht]; omega)]
  · rw [char_toUpper_eq c, if_neg h, char_toUpper_eq c, if_neg h]

theorem char_ne_of_toNat_ne {c d : Char} (h : c.toNat ≠ d.toNat) : c ≠ d :=
  fun he => h (he ▸ rfl)

theorem char_isWhitespace_eq_false {c : Char} (h1 : 33 ≤ c.toNat) : c.isWhitespace = false := by
  have hs : c ≠ ' ' := by intro he; rw [he] at h1; exact absurd h1 (by decide)
  have htb : c ≠ '\t' := by intro he; rw [he] at h1; exact absurd h1 (by decide)
  have hr : c ≠ '\r' := by intro he; rw [he] at h1; exact absurd h1 (by decide)
  have hn : c ≠ '\n' := by intro he; rw [he] at h1; exact absurd h1 (by decide)
  simp [Char.isWhitespace, hs, htb, hr, hn]

theorem char_isWhitespace_toUpper (c : Char) : c.toUpper.isWhitespace = c.isWhitespace := by
  by_cases h : 97 ≤ c.toNat ∧ c.toNat ≤ 122
  · have ht : c.toUpper.toNat = c.toNat - 32 := char_toUpper_toNat_of_lower h.1 h.2
    rw [char_isWhitespace_eq_false (c := c.toUpper) (by rw [ht]; omega),
      char_isWhitespace_eq_false (c := c) (by omega)]
  · rw [char_toUpper_eq, if_neg h]

/-! ### Strip lemmas -/

theorem dropWhile_rdropWhile_dropWhile (p : Char → Bool) (l : List Char) :
    List.dropWhile p (List.rdropWhile p (List.dropWhile p l)) =
      List.rdropWhile p (List.dropWhile p l) := by
  set m := List.dropWhile p l with hm
  obtain ⟨t, ht⟩ : List.dropWhile p m.reverse <:+ m.reverse := List.dropWhile_suffix p
  have hX : m = List.rdropWhile p m ++ t.reverse := by
    have := congrArg List.reverse ht
    simpa [List.rdropWhile] using this.symm
  rw [List.dropWhile_eq_self_iff]
  intro hl
  have hlen : 0 < m.length := by
    rw [hX, List.length_append]; omega
  have hget : (List.rdropWhile p m).get ⟨0, hl⟩ = m.get ⟨0, hlen⟩ := by
    conv_rhs => rw [List.get_of_eq hX]
    rw [List.get_append 0 hl]
  rw [hget]
  have := List.dropWhile_get_zero_not p l (by rw [← hm]; exact hlen)
  simpa [← hm] using this

theorem pyStrip_idem (l : List Char) : pyStrip (pyStrip l) = pyStrip l := by
  unfold pyStrip
  rw [dropWhile_rdropWhile_dropWhile, List.rdropWhile_idempotent]

theorem rdropWhile_map (f : Char → Char) (p : Char → Bool) (hf : ∀ c, p (f c) = p c)
    (l : List Char) :
    List.rdropWhile p (List.map f l) = List.map f (List.rdropWhile p l) := by
  have hpf : (p ∘ f) = p := funext hf
  simp [List.rdropWhile, ← List.map_reverse, List.dropWhile_map, hpf]

theorem pyStrip_pyUpper_comm (l : List Char) :
    pyStrip (pyUpper l) = pyUpper (pyStrip l) := by
  have hws : ∀ c, Char.isWhitespace (Char.toUpper c) = Char.isWhitespace c :=
    char_isWhitespace_toUpper
  have hpf : (Char.isWhitespace ∘ Char.toUpper) = Char.isWhitespace := funext hws
  unfold pyStrip pyUpper
  rw [List.dropWhile_map, hpf, rdropWhile_map _ _ hws]

theorem pyUpper_idem (l : List Char) : pyUpper (pyUpper l) = pyUpper l := by
  unfold pyUpper
  rw [List.map_map]
  exact List.map_congr_left fun c _ => char_toUpper_toUpper c

theorem pyStrip_pyUpper_fixed (l : List Char) :
    pyStrip (pyUpper (pyStrip (pyUpper l))) = pyStrip (pyUpper l) := by
  rw [pyStrip_pyUpper_comm (pyStrip (pyUpper l)), pyStrip_idem,
    ← pyStrip_pyUpper_comm (pyUpper l), pyUpper_idem]

/-- C8: `normalize_abbr` is total (it is a function on all strings) and
idempotent — `normalize_abbr (normalize_abbr x) = normalize_abbr x` for every
string `x` — and the fixed `ABBR_FIX` alias table maps known short forms
correctly, in particular `"GS" ↦ "GSW"` and `"NY" ↦ "NYK"`. -/
theorem normalize_abbr_idem_and_aliases :
    (∀ x : String, normalize_abbr (normalize_abbr x) = normalize_abbr x) ∧
    normalize_abbr "GS" = "GSW" ∧ normalize_abbr "NY" = "NYK" := by
  refine ⟨fun x => ?_, by decide, by decide⟩
  show normalize_abbr (ABBR_FIX_get ⟨pyStrip (pyUpper x.data)⟩) =
    ABBR_FIX_get ⟨pyStrip (pyUpper x.data)⟩
  generalize hx : pyStrip (pyUpper x.data) = td
  have hfix : pyStrip (pyUpper td) = td := by rw [← hx]; exact pyStrip_pyUpper_fixed x.data
  unfold ABBR_FIX_get
  split_ifs with h1 h2 h3 h4 h5 h6 h7 h8
  · exact (by decide : normalize_abbr "GSW" = "GSW")
  · exact (by decide : normalize_abbr "SAS" = "SAS")
  · exact (by decide : normalize_abbr "NYK" = "NYK")
  · exact (by decide : normalize_abbr "WAS" = "WAS")
  · exact (by decide : normalize_abbr "NOP" = "NOP")
  · exact (by decide : normalize_abbr "PHX" = "PHX")
  · exact (by decide : normalize_abbr "BKN" = "BKN")
  · exact (by decide : normalize_abbr "CHA" = "CHA")
  · show ABBR_FIX_get ⟨pyStrip (pyUpper td)⟩ = String.mk td
    rw [hfix]
    unfold ABBR_FIX_get
    rw [if_neg h1, if_neg h2, if_neg h3, if_neg h4, if_neg h5, if_neg h6, if_neg h7, if_neg h8]

/-! ## Dates and date-times

Python `datetime.date` compares lexicographically by `(year, month, day)` and
`datetime.datetime` additionally by the time of day; both are modelled by
injective lexicographic keys. -/

/-- A calendar date (`datetime.date`). -/
structure Date where
  year : Nat
  month : Nat
  day : Nat
deriving DecidableEq

/-- The lexicographic comparison key of a `datetime.date`. -/
def Date.key (a : Date) : Nat ×ₗ Nat ×ₗ Nat := toLex (a.year, toLex (a.month, a.day))

/-- A date-time (`datetime.datetime`): a calendar date plus a time-of-day
rank; comparison is lexicographic on `(date, time)`. -/
structure PyDateTime where
  date : Date
  tod : Nat
deriving DecidableEq

/-- The lexicographic comparison key of a `datetime.datetime`. -/
def PyDateTime.key (t : PyDateTime) : (Nat ×ₗ Nat ×ₗ Nat) ×ₗ Nat := toLex (t.date.key, t.tod)

/-- `espn_season_year_for_date` from `nba_predictions.py`:
`d.year if d.month >= 10 else d.year - 1`. -/
def espn_season_year_for_date (d : Date) : Nat :=
  if 10 ≤ d.month then d.year else d.year - 1

/-- Zero-padded decimal rendering (for `strftime` fields). -/
def padNum (w n : Nat) : String :=
  let s := Nat.repr n
  ⟨List.replicate (w - s.length) '0' ++ s.data⟩

/-- `date_to_yyyymmdd` from `nba_predictions.py`: `d.strftime("%Y%m%d")`. -/
def date_to_yyyymmdd (d : Date) : String :=
  padNum 4 d.year ++ padNum 2 d.month ++ padNum 2 d.day

/-! ## The team-schedule event model and `fetch_team_recent_wins`

A schedule event as consumed by `fetch_team_recent_wins`.  `date = none`
models an event whose `"date"` field is missing *or* rejected by
`datetime.fromisoformat`; `status_completed` models
`competitions[0].status.type.completed` (`none` when absent, read through
`bool(...)`); a competitor's `winner` flag is read through `bool(...)` as
well, so a missing flag counts as `False`. -/

structure Competitor where
  team_id : Option Nat
  winner : Option Bool
deriving DecidableEq

structure Competition where
  status_completed : Option Bool
  competitors : List Competitor
deriving DecidableEq

structure Event where
  date : Option PyDateTime
  competitions : List Competition
deriving DecidableEq

/-- The competitor scan of `fetch_team_recent_wins`: find the first
competitor whose (present) team id equals `team_id` and read its `winner`
flag through `bool(...)`; `none` when no competitor matches. -/
def team_won_of : List Competitor → Nat → Option Bool
  | [], _ => none
  | c :: rest, team_id =>
    match c.team_id with
    | none => team_won_of rest team_id
    | some t => if t = team_id then some (c.winner.getD false) else team_won_of rest team_id

/-- The per-event body of the `for ev in events:` loop of
`fetch_team_recent_wins`; `none` corresponds to the `continue` branches. -/
def eventEntry (team_id : Nat) (cutoff : Date) (ev : Event) : Option (PyDateTime × Bool) :=
  match ev.date with
  | none => none
  | some game_dt =>
    if cutoff.key ≤ game_dt.date.key then none
    else
      match ev.competitions with
      | [] => none
      | comp :: _ =>
        if (comp.status_completed.getD false) = false then none
        else
          match team_won_of comp.competitors team_id with
          | none => none
          | some w => some (game_dt, w)

/-- The ordering used by `wins.sort(key=lambda x: x[0], reverse=True)`:
(date-time) descending. -/
def schedDesc (a b : PyDateTime × Bool) : Prop := b.1.key ≤ a.1.key

instance : DecidableRel schedDesc := fun a b => inferInstanceAs (Decidable (b.1.key ≤ a.1.key))

instance : IsTotal (PyDateTime × Bool) schedDesc := ⟨fun a b => le_total b.1.key a.1.key⟩

instance : IsTrans (PyDateTime × Bool) schedDesc := ⟨fun _ _ _ hab hbc => le_trans hbc hab⟩

/-- The pure part of `fetch_team_recent_wins`: filter the season's events,
sort most-recent-first, project the win flags. -/
def recent_wins_pure (events : List Event) (team_id : Nat) (cutoff : Date) : List Bool :=
  (((events.filterMap (eventEntry team_id cutoff)).insertionSort schedDesc)).map Prod.snd

/-- The `SCHEDULE_WINS_CACHE` dict: key `(team_id, season_year, cutoff yyyymmdd)`. -/
abbrev WinsCache := List ((Nat × Nat × String) × List Bool)

/-- `fetch_team_recent_wins` from `nba_predictions.py`, with the module-level
`SCHEDULE_WINS_CACHE` passed explicitly and the schedule endpoint abstracted
as the oracle `sched` (an `Except` models `get_json_with_retries` raising
after exhausted retries).  The third component counts the fetches performed
by the call (0 on a cache hit, 1 otherwise). -/
def fetch_team_recent_wins (sched : Nat → Nat → Except String (List Event)) (cache : WinsCache)
    (team_id season_year : Nat) (cutoff_date : Date) :
    Except String (List Bool) × WinsCache × Nat :=
  let cache_key : Nat × Nat × String := (team_id, season_year, date_to_yyyymmdd cutoff_date)
  match cache.lookup cache_key with
  | some v => (.ok v, cache, 0)
  | none =>
    match sched team_id season_year with
    | .error e => (.error e, cache, 1)
    | .ok events =>
      let win_flags := recent_wins_pure events team_id cutoff_date
      (.ok win_flags, (cache_key, win_flags) :: cache, 1)

/-- `record_last_n` from `nba_predictions.py`, over an oracle `env` giving the
win/loss sequence a (transparent, see `fetch_team_recent_wins_cache`) cache
lookup returns: `w = sum(1 for x in sample if x)`, `l = len(sample) - w`. -/
def record_last_n (env : Nat → Nat → Date → List Bool) (team_id season_year : Nat)
    (cutoff_date : Date) (n : Nat) : Nat × Nat :=
  let sample := (env team_id season_year cutoff_date).take n
  let w := (sample.filter (fun x => x)).length
  (w, sample.length - w)

/-- C4: the sequence computed by `fetch_team_recent_wins` is the win/loss
flags of exactly those schedule events that carry a parseable date strictly
earlier (as a calendar date) than the cutoff, whose first competition is
completed, and whose competitor list determines a win/loss for the requested
team; the flags are ordered by game date/time descending, and every other
event is skipped (`eventEntry … = none`) without aborting the computation. -/
theorem recent_wins_pure_characterization (events : List Event) (team_id : Nat) (cutoff : Date) :
    recent_wins_pure events team_id cutoff =
      ((events.filterMap (eventEntry team_id cutoff)).insertionSort schedDesc).map Prod.snd ∧
    ((events.filterMap (eventEntry team_id cutoff)).insertionSort schedDesc).Perm
      (events.filterMap (eventEntry team_id cutoff)) ∧
    List.Sorted schedDesc ((events.filterMap (eventEntry team_id cutoff)).insertionSort schedDesc) ∧
    (∀ ev : Event, ∀ gdt : PyDateTime, ∀ w : Bool,
      eventEntry team_id cutoff ev = some (gdt, w) ↔
        ev.date = some gdt ∧ gdt.date.key < cutoff.key ∧
        ∃ comp, ev.competitions.head? = some comp ∧ comp.status_completed.getD false = true ∧
          team_won_of comp.competitors team_id = some w) := by
  refine ⟨rfl, List.perm_insertionSort _ _, List.sorted_insertionSort _ _, fun ev gdt w => ?_⟩
  obtain ⟨evd, evc⟩ := ev
  constructor
  · intro h
    cases evd with
    | none => exact absurd h (by simp [eventEntry])
    | some game_dt =>
      by_cases hcut : cutoff.key ≤ game_dt.date.key
      · exact absurd h (by simp [eventEntry, hcut])
      · cases evc with
        | nil => exact absurd h (by simp [eventEntry, hcut])
        | cons comp rest =>
          by_cases hst : (comp.status_completed.getD false) = false
          · exact absurd h (by simp [eventEntry, hcut, hst])
          · cases htw : team_won_of comp.competitors team_id with
            | none => exact absurd h (by simp [eventEntry, hcut, hst, htw])
            | some w' =>
              obtain ⟨h1, h2⟩ : game_dt = gdt ∧ w' = w := by
                simpa [eventEntry, hcut, hst, htw, Prod.ext_iff] using h
              subst h1; subst h2
              exact ⟨rfl, lt_of_not_le hcut, comp, rfl,
                eq_true_of_ne_false hst, htw⟩
  · rintro ⟨hd, hcut, comp, hcs, hst, htw⟩
    obtain ⟨rest, hcs'⟩ : ∃ rest, evc = comp :: rest := by
      cases evc with
      | nil => exact absurd hcs (by simp)
      | cons a l =>
        have : a = comp := by simpa using hcs
        exact ⟨l, by rw [this]⟩
    have hd' : evd = some gdt := hd
    subst hd'; subst hcs'
    simp [eventEntry, not_le_of_lt hcut, hst, htw]

/-- C3: the `SCHEDULE_WINS_CACHE` behaves as an insert-once map.  (i) A call
whose key is already cached returns the stored sequence unchanged, performs
no fetch, and leaves the cache untouched — regardless of what the fetch layer
would now return; (ii) no call ever changes an existing entry of the cache;
(iii) whenever a call returns a sequence, that sequence is cached under the
call's key afterwards, so every later call with the same key returns the
identical sequence without re-fetching. -/
theorem fetch_team_recent_wins_cache :
    (∀ (sched : Nat → Nat → Except String (List Event)) (cache : WinsCache)
      (team_id season_year : Nat) (cutoff_date : Date) (v : List Bool),
      cache.lookup (team_id, season_year, date_to_yyyymmdd cutoff_date) = some v →
      fetch_team_recent_wins sched cache team_id season_year cutoff_date = (.ok v, cache, 0)) ∧
    (∀ (sched : Nat → Nat → Except String (List Event)) (cache : WinsCache)
      (team_id season_year : Nat) (cutoff_date : Date)
      (k : Nat × Nat × String) (v : List Bool),
      cache.lookup k = some v →
      ((fetch_team_recent_wins sched cache team_id season_year cutoff_date).2.1).lookup k =
        some v) ∧
    (∀ (sched : Nat → Nat → Except String (List Event)) (cache : WinsCache)
      (team_id season_year : Nat) (cutoff_date : Date) (l : List Bool),
      (fetch_team_recent_wins sched cache team_id season_year cutoff_date).1 = .ok l →
      ((fetch_team_recent_wins sched cache team_id season_year cutoff_date).2.1).lookup
        (team_id, season_year, date_to_yyyymmdd cutoff_date) = some l) := by
  refine ⟨fun sched cache team_id season_year cutoff_date v hv => ?_,
    fun sched cache team_id season_year cutoff_date k v hv => ?_,
    fun sched cache team_id season_year cutoff_date l hl => ?_⟩
  · simp [fetch_team_recent_wins, hv]
  · cases hck : cache.lookup (team_id, season_year, date_to_yyyymmdd cutoff_date) with
    | some v' => simpa [fetch_team_recent_wins, hck] using hv
    | none =>
      cases hs : sched team_id season_year with
      | error e => simpa [fetch_team_recent_wins, hck, hs] using hv
      | ok events =>
        have hne : k ≠ (team_id, season_year, date_to_yyyymmdd cutoff_date) := by
          intro he; rw [he, hck] at hv; exact absurd hv (by simp)
        simp only [fetch_team_recent_wins, hck, hs]
        have hbeq : (k == (team_id, season_year, date_to_yyyymmdd cutoff_date)) = false :=
          beq_eq_false_iff_ne.mpr hne
        rw [List.lookup_cons, hbeq]
        exact hv
  · cases hck : cache.lookup (team_id, season_year, date_to_yyyymmdd cutoff_date) with
    | some v' =>
      have : v' = l := by simpa [fetch_team_recent_wins, hck] using hl
      subst this
      simp [fetch_team_recent_wins, hck]
    | none =>
      cases hs : sched team_id season_year with
      | error e => simp [fetch_team_recent_wins, hck, hs] at hl
      | ok events =>
        have : recent_wins_pure events team_id cutoff_date = l := by
          simpa [fetch_team_recent_wins, hck, hs] using hl
        subst this
        simp [fetch_team_recent_wins, hck, hs]

/-! ## The team directory cache (`load_team_map`) -/

/-- The value stored per abbreviation: `{"id": int(tid), "name": str(name)}`. -/
structure TeamInfo where
  id : Nat
  name : String
deriving DecidableEq

/-- One entry of the provider's team list (`item["team"]`), with the fields
`load_team_map` reads; `none` models an absent field. -/
structure RawTeam where
  id : Option Nat
  abbreviation : Option String
  shortDisplayName : Option String
  displayName : Option String
deriving DecidableEq

structure LeagueEntry where
  teams : List RawTeam
deriving DecidableEq

structure SportEntry where
  leagues : List LeagueEntry
deriving DecidableEq

/-- The decoded body of the teams endpoint: `sports[0].leagues[0].teams`. -/
structure TeamsDoc where
  sports : List SportEntry
deriving DecidableEq

/-- The `TEAM_MAP_CACHE` / `TEAM_MAP_CACHE_TS` module globals. -/
structure TMState where
  cache : Option (List (String × TeamInfo))
  ts : Nat
deriving DecidableEq

def TEAM_MAP_TTL_SECONDS : Nat := 6 * 60 * 60

/-- Python `a or b` on an optional string (`None` and `""` are falsy). -/
def pyOrStr (o : Option String) (els : String) : String :=
  match o with
  | some s => if s = "" then els else s
  | none => els

/-- Python dict assignment `m[k] = v` on an association list: overwrite the
existing binding, else append. -/
def dictInsert (m : List (String × TeamInfo)) (k : String) (v : TeamInfo) :
    List (String × TeamInfo) :=
  if m.any (fun kv => kv.1 = k) then m.map (fun kv => if kv.1 = k then (k, v) else kv)
  else m ++ [(k, v)]

/-- The mapping-construction loop of `load_team_map`: drop items with a
missing/falsy id or an empty normalized abbreviation, prefer
`shortDisplayName`, then `displayName`, then the abbreviation as the name. -/
def build_team_map (doc : TeamsDoc) : List (String × TeamInfo) :=
  let teams_list :=
    match doc.sports with
    | [] => []
    | s :: _ =>
      match s.leagues with
      | [] => []
      | l :: _ => l.teams
  teams_list.foldl
    (fun m item =>
      let abbr := normalize_abbr (item.abbreviation.getD "")
      let name := pyOrStr item.shortDisplayName (pyOrStr item.displayName abbr)
      match item.id with
      | none => m
      | some tid => if tid ≠ 0 ∧ abbr ≠ "" then dictInsert m abbr ⟨tid, name⟩ else m)
    []

/-- The freshness test `if TEAM_MAP_CACHE and (now - TEAM_MAP_CACHE_TS) <
TEAM_MAP_TTL_SECONDS` (an empty or absent mapping is falsy). -/
def tm_fresh (st : TMState) (now : Nat) : Bool :=
  match st.cache with
  | some m => decide (m ≠ []) && decide (now - st.ts < TEAM_MAP_TTL_SECONDS)
  | none => false

/-- `load_team_map` from `nba_predictions.py`, with the module globals passed
explicitly and the teams endpoint abstracted by `fetch` (an `Except.error`
models `get_json_with_retries` raising after exhausted retries — note the
source has no `try`/`except` around the fetch). -/
def load_team_map (now : Nat) (fetch : Except String TeamsDoc) (st : TMState) :
    Except String (List (String × TeamInfo)) × TMState :=
  if tm_fresh st now then (.ok (st.cache.getD []), st)
  else
    match fetch with
    | .error e => (.error e, st)
    | .ok doc =>
      let m := build_team_map doc
      if m = [] then (.error "Failed to load team list from ESPN.", st)
      else (.ok m, { cache := some m, ts := now })

/-! ## The prediction engine (`pick_winner`, `format_prediction`, `preds_cmd`) -/

/-- A scoreboard matchup. -/
structure Matchup where
  away_abbr : String
  home_abbr : String
deriving DecidableEq

/-- The breakdown dict returned by `pick_winner`. -/
structure Breakdown where
  away : String
  home : String
  away10 : Nat × Nat
  home10 : Nat × Nat
  away5 : Option (Nat × Nat)
  home5 : Option (Nat × Nat)
  reason : String
deriving DecidableEq

/-- `pick_winner` from `nba_predictions.py`.  `team_map` is the mapping
returned by `load_team_map` and `env` the win/loss sequence a cache lookup
through `fetch_team_recent_wins` yields for each key (the cache is
transparent by `fetch_team_recent_wins_cache`).  Unknown abbreviations raise
`ValueError` — away checked first. -/
def pick_winner (team_map : List (String × TeamInfo)) (env : Nat → Nat → Date → List Bool)
    (away_abbr home_abbr : String) (cutoff_date : Date) :
    Except String (String × Breakdown) :=
  let away := normalize_abbr away_abbr
  let home := normalize_abbr home_abbr
  match team_map.lookup away with
  | none => .error ("Unknown team abbreviation: " ++ away)
  | some away_info =>
    match team_map.lookup home with
    | none => .error ("Unknown team abbreviation: " ++ home)
    | some home_info =>
      let away_id := away_info.id
      let home_id := home_info.id
      let season_year := espn_season_year_for_date cutoff_date
      let a10 := record_last_n env away_id season_year cutoff_date 10
      let h10 := record_last_n env home_id season_year cutoff_date 10
      if a10.1 ≠ h10.1 then
        .ok (if a10.1 > h10.1 then away else home,
          ⟨away, home, a10, h10, none, none, "last10"⟩)
      else
        let a5 := record_last_n env away_id season_year cutoff_date 5
        let h5 := record_last_n env home_id season_year cutoff_date 5
        if a5.1 ≠ h5.1 then
          .ok (if a5.1 > h5.1 then away else home,
            ⟨away, home, a10, h10, some a5, some h5, "last5"⟩)
        else
          .ok (home, ⟨away, home, a10, h10, some a5, some h5, "home_tiebreak"⟩)

/-- The three-step decision chain as the specification states it, step by
step: more last-10 wins, else more last-5 wins, else the home team.  Returns
`(winner, reason)`. -/
def spec_chain (away home : String) (a10w h10w a5w h5w : Nat) : String × String :=
  if a10w ≠ h10w then (if a10w > h10w then away else home, "last10")
  else if a5w ≠ h5w then (if a5w > h5w then away else home, "last5")
  else (home, "home_tiebreak")

/-- `format_prediction` from `nba_predictions.py`. -/
def format_prediction (winner : String) (info : Breakdown) : String :=
  let line := info.away ++ " @ " ++ info.home ++ "  →  🏆 *" ++ winner ++ "*"
  let line := line ++ "\nLast10: " ++ info.away ++ " " ++ Nat.repr info.away10.1 ++ "-" ++
    Nat.repr info.away10.2 ++ " | " ++ info.home ++ " " ++ Nat.repr info.home10.1 ++ "-" ++
    Nat.repr info.home10.2
  let line :=
    match info.away5, info.home5 with
    | some a5, some h5 =>
      line ++ "\nLast5:  " ++ info.away ++ " " ++ Nat.repr a5.1 ++ "-" ++ Nat.repr a5.2 ++
        " | " ++ info.home ++ " " ++ Nat.repr h5.1 ++ "-" ++ Nat.repr h5.2
    | _, _ => line
  if info.reason = "home_tiebreak" then line ++ "\nTie-break: home team" else line

/-- The body of the `for g in games:` loop of `preds_cmd`: a successful
`pick_winner` is formatted, a raised exception is caught per matchup and
rendered as an inline error line in the matchup's place. -/
def prediction_line (team_map : List (String × TeamInfo)) (env : Nat → Nat → Date → List Bool)
    (cutoff_date : Date) (g : Matchup) : String :=
  match pick_winner team_map env g.away_abbr g.home_abbr cutoff_date with
  | .ok (winner, info) => format_prediction winner info
  | .error e =>
    normalize_abbr g.away_abbr ++ " @ " ++ normalize_abbr g.home_abbr ++ "  →  (error: " ++
      e ++ ")"

/-- The per-matchup lines the `preds_cmd` loop appends after the header. -/
def preds_lines (team_map : List (String × TeamInfo)) (env : Nat → Nat → Date → List Bool)
    (cutoff_date : Date) (games : List Matchup) : List String :=
  games.map (prediction_line team_map env cutoff_date)

/-- The chunking loop of `preds_cmd`:
`for i in range(0, len(text), MAX): send(text[i:i+MAX])`, on the character
sequence of the text.  `maxLen = 0` (an invalid `range` step in Python) is
mapped to the empty output; the claims only concern `maxLen ≥ 1`. -/
def chunk (maxLen : Nat) (s : List Char) : List (List Char) :=
  match maxLen, s with
  | _, [] => []
  | 0, _ :: _ => []
  | m + 1, c :: cs => ((c :: cs).take (m + 1)) :: chunk (m + 1) ((c :: cs).drop (m + 1))
termination_by s.length
decreasing_by simp [List.length_drop]; omega

/-! ## Claim theorems: prediction engine and report -/

/-- C1: for every team directory in which both abbreviations resolve and
every cutoff date, `pick_winner` selects winner and reason by the
deterministic three-step chain: more last-10 wins (`"last10"`), else more
last-5 wins (`"last5"`), else the home team (`"home_tiebreak"`). -/
theorem pick_winner_follows_spec_chain (team_map : List (String × TeamInfo))
    (env : Nat → Nat → Date → List Bool) (away_abbr home_abbr : String) (cutoff_date : Date)
    (away_info home_info : TeamInfo)
    (ha : team_map.lookup (normalize_abbr away_abbr) = some away_info)
    (hh : team_map.lookup (normalize_abbr home_abbr) = some home_info) :
    (pick_winner team_map env away_abbr home_abbr cutoff_date).map
        (fun r => (r.1, r.2.reason)) =
      .ok (spec_chain (normalize_abbr away_abbr) (normalize_abbr home_abbr)
        (record_last_n env away_info.id (espn_season_year_for_date cutoff_date) cutoff_date 10).1
        (record_last_n env home_info.id (espn_season_year_for_date cutoff_date) cutoff_date 10).1
        (record_last_n env away_info.id (espn_season_year_for_date cutoff_date) cutoff_date 5).1
        (record_last_n env home_info.id (espn_season_year_for_date cutoff_date) cutoff_date 5).1) := by
  simp only [pick_winner, spec_chain, ha, hh]
  split_ifs with h10 hgt10 h5 hgt5 <;> simp_all [Except.map]

/-- C2 counterexample: after the TTL has elapsed, a failing reload makes
`load_team_map` propagate the fetch error even though a previous (non-empty)
mapping exists — the stale mapping is *not* used to answer the lookup,
contradicting the claim. -/
theorem load_team_map_stale_map_unused :
    (load_team_map TEAM_MAP_TTL_SECONDS (.error "boom")
        ⟨some [("BOS", ⟨2, "Celtics"⟩)], 0⟩).1 = .error "boom" ∧
    (⟨some [("BOS", ⟨2, "Celtics"⟩)], 0⟩ : TMState).cache.isSome = true := by
  constructor
  · rfl
  · rfl

/-- C2 (amended): when the freshness test fails (TTL elapsed, or no usable
previous mapping) and the reload through the fetch layer fails, the error
propagates to the caller whether or not a previous mapping exists; the
module state — including any previously cached mapping — is left unchanged
(kept, but not used to answer the lookup). -/
theorem load_team_map_reload_failure (now : Nat) (st : TMState) (e : String)
    (h : tm_fresh st now = false) :
    load_team_map now (.error e) st = (.error e, st) := by
  simp [load_team_map, h]

/-! ## Chunking (C5) -/

theorem chunk_join (m : Nat) : ∀ (n : Nat) (s : List Char), s.length ≤ n →
    (chunk (m + 1) s).flatten = s
  | _, [], _ => by rw [chunk]; rfl
  | 0, c :: cs, h => by simp at h
  | n + 1, c :: cs, h => by
    rw [chunk]
    have hlen : ((c :: cs).drop (m + 1)).length ≤ n := by
      simp only [List.length_drop, List.length_cons] at *
      omega
    rw [List.flatten_cons, chunk_join m n _ hlen]
    exact List.take_append_drop (m + 1) (c :: cs)

theorem chunk_le (m : Nat) : ∀ (n : Nat) (s : List Char), s.length ≤ n →
    ∀ c ∈ chunk (m + 1) s, c.length ≤ m + 1
  | _, [], _ => by rw [chunk]; intro c hc; exact absurd hc (by simp)
  | 0, c :: cs, h => by simp at h
  | n + 1, c :: cs, h => by
    rw [chunk]
    intro x hx
    rcases List.mem_cons.mp hx with h1 | h2
    · rw [h1]
      exact List.length_take_le _ _
    · refine chunk_le m n _ ?_ x h2
      simp only [List.length_drop, List.length_cons] at *
      omega

/-- C5: splitting a text into consecutive chunks of at most `maxLen`
characters, as the `preds_cmd` sender does with `MAX = 3500`, yields an
ordered sequence of substrings whose concatenation is exactly the original
text and each of whose lengths is at most `maxLen`, for every text and every
`maxLen ≥ 1`. -/
theorem chunk_roundtrip (maxLen : Nat) (h : 1 ≤ maxLen) (s : List Char) :
    (chunk maxLen s).flatten = s ∧ ∀ c ∈ chunk maxLen s, c.length ≤ maxLen := by
  obtain ⟨m, rfl⟩ : ∃ m, maxLen = m + 1 := ⟨maxLen - 1, by omega⟩
  exact ⟨chunk_join m s.length s le_rfl, chunk_le m s.length s le_rfl⟩

/-- C7: in the `preds_cmd` loop each report line is computed from its own
matchup alone; a matchup for which `pick_winner` raises yields a single
inline error line in that matchup's place, and every matchup for which
`pick_winner` succeeds yields its formatted prediction, so one failing
matchup never prevents the others from being computed and included. -/
theorem preds_lines_partial_failure (team_map : List (String × TeamInfo))
    (env : Nat → Nat → Date → List Bool) (cutoff_date : Date) (games : List Matchup)
    (i : Nat) (g : Matchup) (hg : games[i]? = some g) :
    (preds_lines team_map env cutoff_date games).length = games.length ∧
    (preds_lines team_map env cutoff_date games)[i]? =
      some (prediction_line team_map env cutoff_date g) ∧
    (∀ e, pick_winner team_map env g.away_abbr g.home_abbr cutoff_date = .error e →
      prediction_line team_map env cutoff_date g =
        normalize_abbr g.away_abbr ++ " @ " ++ normalize_abbr g.home_abbr ++
          "  →  (error: " ++ e ++ ")") ∧
    (∀ winner info,
      pick_winner team_map env g.away_abbr g.home_abbr cutoff_date = .ok (winner, info) →
      prediction_line team_map env cutoff_date g = format_prediction winner info) := by
  refine ⟨List.length_map _ _, ?_, fun e he => ?_, fun winner info hw => ?_⟩
  · rw [preds_lines, List.getElem?_map, hg]; rfl
  · rw [prediction_line, he]
  · rw [prediction_line, hw]

/-! ## The weekly FPL pipeline (`compute_weekly_fpl` in `bot_test.py`)

Per-period history rows carry the fields the pipeline reads; `none` models
an absent field.  Python's float division `pts / apps` is modelled over
`ℚ`. -/

/-- A position category (`pos_map = {1: GK, 2: DEF, 3: MID, 4: FWD}`). -/
inductive Pos
  | GK
  | DEF
  | MID
  | FWD
deriving DecidableEq

/-- `pos_map.get(p.get("element_type"))`. -/
def pos_map : Option Nat → Option Pos
  | some 1 => some .GK
  | some 2 => some .DEF
  | some 3 => some .MID
  | some 4 => some .FWD
  | _ => none

/-- One row of a player's `history` from the element-summary endpoint. -/
structure HistRow where
  total_points : Int
  minutes : Nat
  defensive_contribution : Option Int
  defcon : Option Int
  defensive_contribution_points : Option Int
  defcon_points : Option Int
deriving DecidableEq

/-- One entry of `bootstrap["elements"]`. -/
structure Element where
  element_type : Option Nat
  id : Nat
  first_name : String
  second_name : String
  team : Option Nat
deriving DecidableEq

/-- `get_first(d, [k1, k2], 0)` from `bot_test.py`: the first present,
non-`None` field, else `0`. -/
def get_first (a b : Option Int) : Int :=
  match a with
  | some v => v
  | none =>
    match b with
    | some v => v
    | none => 0

/-- Python `hist[-last_n:]` (note `hist[-0:]` is the whole list). -/
def pyLastN (n : Nat) (l : List HistRow) : List HistRow :=
  if n = 0 then l else l.drop (l.length - n)

/-- `f'{first_name} {second_name}'.strip()`. -/
def player_name (p : Element) : String :=
  String.mk (pyStrip (p.first_name ++ " " ++ p.second_name).data)

/-- `teams.get(p.get("team"), "Unknown")`. -/
def team_name (teams : List (Nat × String)) (p : Element) : String :=
  match p.team with
  | none => "Unknown"
  | some t => (teams.lookup t).getD "Unknown"

/-- A row of `top_by_pos` : `(ppa, pts, apps, mins, name, team)`. -/
structure WRow where
  ppa : ℚ
  pts : Int
  apps : Nat
  mins : Nat
  name : String
  team : String
deriving DecidableEq

/-- A row of `top_defcon` : `(dc_pa, dc_sum, dc_pts, apps, name, team)`. -/
structure DRow where
  dc_pa : ℚ
  dc_sum : Int
  dc_pts : Int
  apps : Nat
  name : String
  team : String
deriving DecidableEq

/-- The window statistics of the `for p in elements:` loop body:
`pts`, `mins`, `apps` over the last-`last_n` slice. -/
def weekly_pts (last : List HistRow) : Int := (last.map (fun x => x.total_points)).sum

def weekly_mins (last : List HistRow) : Nat := (last.map (fun x => x.minutes)).sum

def weekly_apps (last : List HistRow) : Nat :=
  (last.filter (fun x => decide (0 < x.minutes))).length

/-- The inclusion filter of `compute_weekly_fpl`:
`if apps < min_apps: continue` / `if mins < min_total_min: continue`. -/
def passes_filter (min_apps min_total_min apps mins : Nat) : Bool :=
  !(decide (apps < min_apps)) && !(decide (mins < min_total_min))

/-- The body of the `for p in elements:` loop of `compute_weekly_fpl`;
`.ok none` corresponds to the `continue` branches (unknown position, failed
per-player fetch, empty history, filtered out).  Python's `pts / apps`
raises `ZeroDivisionError` when a filter-passing row has `apps = 0`
(possible only with `min_apps = 0`); that exception is uncaught (the
per-player `try` wraps only the fetch), so it is modelled as `.error`.  In
the remaining branch `apps ≠ 0` and the divisions (here over `ℚ`) are the
ordinary non-zero-denominator ones. -/
def processElem (teams : List (Nat × String)) (summaries : Nat → Except String (List HistRow))
    (last_n min_apps min_total_min : Nat) (p : Element) :
    Except String (Option (Pos × WRow × Option DRow)) :=
  match pos_map p.element_type with
  | none => .ok none
  | some pos =>
    match summaries p.id with
    | .error _ => .ok none
    | .ok hist =>
      match hist with
      | [] => .ok none
      | _ :: _ =>
        let last := pyLastN last_n hist
        let pts := weekly_pts last
        let mins := weekly_mins last
        let apps := weekly_apps last
        if passes_filter min_apps min_total_min apps mins = false then .ok none
        else if apps = 0 then .error "ZeroDivisionError: division by zero"
        else
          let ppa : ℚ := (pts : ℚ) / (apps : ℚ)
          let w : WRow := ⟨ppa, pts, apps, mins, player_name p, team_name teams p⟩
          let d : Option DRow :=
            if pos = Pos.GK then none
            else
              let dc_sum := (last.map (fun x => get_first x.defensive_contribution x.defcon)).sum
              let dc_pts :=
                (last.map
                  (fun x => get_first x.defensive_contribution_points x.defcon_points)).sum
              some ⟨(dc_sum : ℚ) / (apps : ℚ), dc_sum, dc_pts, apps, player_name p,
                team_name teams p⟩
          .ok (some (pos, w, d))

/-- The sort key `lambda x: (x[0], x[1], x[2], x[3])` of `top_by_pos`. -/
def wkey (r : WRow) : ℚ ×ₗ Int ×ₗ Nat ×ₗ Nat := toLex (r.ppa, toLex (r.pts, toLex (r.apps, r.mins)))

/-- `sort(reverse=True, key=...)`: descending in the key. -/
def wdesc (a b : WRow) : Prop := wkey b ≤ wkey a

instance : DecidableRel wdesc := fun a b => inferInstanceAs (Decidable (wkey b ≤ wkey a))

instance : IsTotal WRow wdesc := ⟨fun a b => le_total (wkey b) (wkey a)⟩

instance : IsTrans WRow wdesc := ⟨fun _ _ _ hab hbc => le_trans hbc hab⟩

/-- The sort key `lambda x: (x[0], x[1], x[2], x[3])` of `top_defcon`. -/
def dckey (r : DRow) : ℚ ×ₗ Int ×ₗ Int ×ₗ Nat :=
  toLex (r.dc_pa, toLex (r.dc_sum, toLex (r.dc_pts, r.apps)))

def dcdesc (a b : DRow) : Prop := dckey b ≤ dckey a

instance : DecidableRel dcdesc := fun a b => inferInstanceAs (Decidable (dckey b ≤ dckey a))

instance : IsTotal DRow dcdesc := ⟨fun a b => le_total (dckey b) (dckey a)⟩

instance : IsTrans DRow dcdesc := ⟨fun _ _ _ hab hbc => le_trans hbc hab⟩

/-- The `for p in elements:` loop of `compute_weekly_fpl`: skipped players
(`.ok none`) are dropped, kept rows are collected in element order, and an
uncaught `ZeroDivisionError` from one player aborts the whole loop. -/
def collect_rows (teams : List (Nat × String)) (summaries : Nat → Except String (List HistRow))
    (last_n min_apps min_total_min : Nat) :
    List Element → Except String (List (Pos × WRow × Option DRow))
  | [] => .ok []
  | p :: rest =>
    match processElem teams summaries last_n min_apps min_total_min p with
    | .error e => .error e
    | .ok none => collect_rows teams summaries last_n min_apps min_total_min rest
    | .ok (some r) =>
      (collect_rows teams summaries last_n min_apps min_total_min rest).map (fun rs => r :: rs)

/-- The post-loop stage of `compute_weekly_fpl`: per position, sort
descending by the key tuple and keep the first `top_n` (`top_defcon` holds
no goalkeepers). -/
def rank_rows (top_n : Nat) (rows : List (Pos × WRow × Option DRow)) :
    (Pos → List WRow) × (Pos → List DRow) :=
  (fun pos =>
    (((rows.filter (fun r => decide (r.1 = pos))).map (fun r => r.2.1)).insertionSort
      wdesc).take top_n,
   fun pos =>
    if pos = Pos.GK then []
    else
      (((rows.filter (fun r => decide (r.1 = pos))).filterMap (fun r => r.2.2)).insertionSort
        dcdesc).take top_n)

/-- `compute_weekly_fpl` from `bot_test.py`, with the two FPL endpoints
abstracted as inputs: `elements`/`teams` from `bootstrap-static` and
`summaries` for the per-player `element-summary` fetch (an `Except.error`
there models the per-player `try`/`except` skip).  Returns the two
per-position top lists, or the uncaught `ZeroDivisionError` when a
filter-passing player has no appearances. -/
def compute_weekly_fpl (elements : List Element) (teams : List (Nat × String))
    (summaries : Nat → Except String (List HistRow)) (top_n last_n min_apps min_total_min : Nat) :
    Except String ((Pos → List WRow) × (Pos → List DRow)) :=
  (collect_rows teams summaries last_n min_apps min_total_min elements).map (rank_rows top_n)

/-- Any row `processElem` lets through passed the inclusion filter. -/
theorem processElem_passes (teams : List (Nat × String))
    (summaries : Nat → Except String (List HistRow)) (last_n min_apps min_total_min : Nat)
    (p : Element) (pos : Pos) (w : WRow) (d : Option DRow)
    (h : processElem teams summaries last_n min_apps min_total_min p = .ok (some (pos, w, d))) :
    passes_filter min_apps min_total_min w.apps w.mins = true := by
  simp only [processElem] at h
  split at h
  · exact absurd h (by simp)
  · split at h
    · exact absurd h (by simp)
    · split at h
      · exact absurd h (by simp)
      · rename_i hd0 tl0 heq0
        by_cases hpass : passes_filter min_apps min_total_min
            (weekly_apps (pyLastN last_n (hd0 :: tl0)))
            (weekly_mins (pyLastN last_n (hd0 :: tl0))) = false
        · rw [if_pos hpass] at h
          exact absurd h (by simp)
        · rw [if_neg hpass] at h
          by_cases happ : weekly_apps (pyLastN last_n (hd0 :: tl0)) = 0
          · rw [if_pos happ] at h
            exact absurd h (by simp)
          · rw [if_neg happ] at h
            simp only [Except.ok.injEq, Option.some.injEq, Prod.mk.injEq] at h
            obtain ⟨hpos, hw, hd⟩ := h
            rw [← hw]
            exact eq_true_of_ne_false hpass

/-- C6 counterexample: with the legal threshold configuration
`min_apps = 0` (settable via the `MIN_APPS_LAST5` environment variable), a
player whose last-window rows all have `minutes = 0` survives the inclusion
filter with `appearances = 0`, so the claimed guarantee `appearances ≥ 1`
fails, and `pts / apps` is a division by zero: the computation raises
`ZeroDivisionError`. -/
theorem compute_weekly_fpl_zero_apps_survives :
    weekly_apps [⟨5, 0, none, none, none, none⟩] = 0 ∧
    passes_filter 0 0 (weekly_apps [⟨5, 0, none, none, none, none⟩])
      (weekly_mins [⟨5, 0, none, none, none, none⟩]) = true ∧
    processElem [] (fun _ => .ok [⟨5, 0, none, none, none, none⟩]) 5 0 0
      ⟨some 3, 7, "A", "B", none⟩ = .error "ZeroDivisionError: division by zero" :=
  ⟨by decide, by decide, rfl⟩

/-- C6 (amended): every player row emitted by the `compute_weekly_fpl` loop
passed the inclusion filter, and whenever the minimum-appearances threshold
is at least 1 — which includes the default configuration `min_apps = 2` —
passing the filter forces `appearances ≥ 1`, so the points-per-appearance
and defensive-contribution-per-appearance divisions never divide by zero. -/
theorem weekly_filter_apps_pos :
    (∀ (teams : List (Nat × String)) (summaries : Nat → Except String (List HistRow))
      (last_n min_apps min_total_min : Nat) (p : Element) (pos : Pos) (w : WRow)
      (d : Option DRow),
      processElem teams summaries last_n min_apps min_total_min p = .ok (some (pos, w, d)) →
      passes_filter min_apps min_total_min w.apps w.mins = true) ∧
    (∀ min_apps min_total_min apps mins : Nat, 1 ≤ min_apps →
      passes_filter min_apps min_total_min apps mins = true → 1 ≤ apps) := by
  refine ⟨processElem_passes, fun min_apps min_total_min apps mins hmin hp => ?_⟩
  simp only [passes_filter, Bool.and_eq_true, Bool.not_eq_true', decide_eq_false_iff_not,
    not_lt] at hp
  omega

/-- C9: whenever `compute_weekly_fpl` returns at all — i.e. its element loop
collected its rows without raising — it returns the ranked rows, and for
every position category the primary list has length at most `top_n`, is
non-increasing in the sort-key tuple `(points-per-appearance, total points,
appearances, total minutes)`, and repeated calls on identical inputs return
identical output. -/
theorem compute_weekly_fpl_ranked (elements : List Element) (teams : List (Nat × String))
    (summaries : Nat → Except String (List HistRow)) (top_n last_n min_apps min_total_min : Nat)
    (pos : Pos) (rows : List (Pos × WRow × Option DRow))
    (h : collect_rows teams summaries last_n min_apps min_total_min elements = .ok rows) :
    compute_weekly_fpl elements teams summaries top_n last_n min_apps min_total_min =
      .ok (rank_rows top_n rows) ∧
    ((rank_rows top_n rows).1 pos).length ≤ top_n ∧
    List.Sorted wdesc ((rank_rows top_n rows).1 pos) ∧
    compute_weekly_fpl elements teams summaries top_n last_n min_apps min_total_min =
      compute_weekly_fpl elements teams summaries top_n last_n min_apps min_total_min := by
  refine ⟨by rw [compute_weekly_fpl, h]; rfl, List.length_take_le _ _, ?_, rfl⟩
  exact List.Pairwise.sublist (List.take_sublist _ _) (List.sorted_insertionSort wdesc _)

/-! ## `parse_date_arg` and the `/preds` date phase (C10) -/

/-- `re.fullmatch(r"\d{4}-\d{2}-\d{2}", arg)` as a predicate on the
character sequence. -/
def matchesDatePattern (s : List Char) : Bool :=
  match s with
  | [c1, c2, c3, c4, h1, c5, c6, h2, c7, c8] =>
    c1.isDigit && c2.isDigit && c3.isDigit && c4.isDigit && h1 == '-' &&
      c5.isDigit && c6.isDigit && h2 == '-' && c7.isDigit && c8.isDigit
  | _ => false

/-- `int(...)` on a digit group. -/
def digitsVal (l : List Char) : Nat :=
  l.foldl (fun acc c => 10 * acc + (c.toNat - 48)) 0

/-- Modelled from the spec of the Python standard library: the Gregorian
leap-year rule used by `datetime.date`. -/
def isLeapYear (y : Nat) : Bool :=
  decide (y % 4 = 0) && (decide (y % 100 ≠ 0) || decide (y % 400 = 0))

/-- Modelled from the spec of the Python standard library: days in a month. -/
def days_in_month (y m : Nat) : Nat :=
  if m = 2 then (if isLeapYear y then 29 else 28)
  else if m = 4 ∨ m = 6 ∨ m = 9 ∨ m = 11 then 30
  else 31

/-- Modelled from the spec of the Python standard library:
`datetime.date(y, m, d)` returns a date when `1 ≤ y ≤ 9999`,
`1 ≤ m ≤ 12` and `1 ≤ d ≤ days_in_month(y, m)`, and raises `ValueError`
otherwise. -/
def mkPyDate (y m d : Nat) : Except String Date :=
  if 1 ≤ y ∧ y ≤ 9999 ∧ 1 ≤ m ∧ m ≤ 12 ∧ 1 ≤ d ∧ d ≤ days_in_month y m then .ok ⟨y, m, d⟩
  else .error "ValueError: invalid date"

/-- The year/month/day digit groups `map(int, arg.split("-"))` yields on a
pattern-matching argument. -/
def py_year (s : String) : Nat := digitsVal (s.data.take 4)

def py_month (s : String) : Nat := digitsVal ((s.data.drop 5).take 2)

def py_day (s : String) : Nat := digitsVal (s.data.drop 8)

/-- `parse_date_arg` from `nba_predictions.py`.  An `Except.error` models an
uncaught `ValueError` raised by `dt.date(y, m, d)`. -/
def parse_date_arg (arg : Option String) : Except String (Option Date) :=
  match arg with
  | none => .ok none
  | some s =>
    if s = "" then .ok none
    else if matchesDatePattern s.data = false then .ok none
    else
      match s.data with
      | [c1, c2, c3, c4, _, c5, c6, _, c7, c8] =>
        (mkPyDate (digitsVal [c1, c2, c3, c4]) (digitsVal [c5, c6])
          (digitsVal [c7, c8])).map some
      | _ => .ok none

/-- The observable outcomes of the date phase of `preds_cmd`. -/
inductive PredsDateOutcome
  | usage
  | proceed (d : Date)
deriving DecidableEq

/-- The date phase of `preds_cmd`:
`d = parse_date_arg(arg) if arg else get_tomorrow_utc(); if d is None: usage`.
There is no `try`/`except` around `parse_date_arg`, so an exception it
raises propagates out of the handler (`Except.error`). -/
def preds_cmd_date (arg : Option String) (tomorrow : Date) : Except String PredsDateOutcome :=
  match arg with
  | none => .ok (.proceed tomorrow)
  | some a =>
    if a = "" then .ok (.proceed tomorrow)
    else
      match parse_date_arg (some a) with
      | .error e => .error e
      | .ok none => .ok .usage
      | .ok (some d) => .ok (.proceed d)

theorem matchesDatePattern_inv {l : List Char} (h : matchesDatePattern l = true) :
    ∃ c1 c2 c3 c4 c5 c6 c7 c8, l = [c1, c2, c3, c4, '-', c5, c6, '-', c7, c8] := by
  rcases l with _ | ⟨c1, l⟩; · simp [matchesDatePattern] at h
  rcases l with _ | ⟨c2, l⟩; · simp [matchesDatePattern] at h
  rcases l with _ | ⟨c3, l⟩; · simp [matchesDatePattern] at h
  rcases l with _ | ⟨c4, l⟩; · simp [matchesDatePattern] at h
  rcases l with _ | ⟨h1, l⟩; · simp [matchesDatePattern] at h
  rcases l with _ | ⟨c5, l⟩; · simp [matchesDatePattern] at h
  rcases l with _ | ⟨c6, l⟩; · simp [matchesDatePattern] at h
  rcases l with _ | ⟨h2, l⟩; · simp [matchesDatePattern] at h
  rcases l with _ | ⟨c7, l⟩; · simp [matchesDatePattern] at h
  rcases l with _ | ⟨c8, l⟩; · simp [matchesDatePattern] at h
  rcases l with _ | ⟨c9, l⟩
  · simp only [matchesDatePattern, Bool.and_eq_true, beq_iff_eq] at h
    exact ⟨c1, c2, c3, c4, c5, c6, c7, c8, by rw [h.1.1.1.1.1.2, h.1.1.2]⟩
  · simp [matchesDatePattern] at h

/-- C10: `parse_date_arg` returns `None` for a missing or empty argument and
for any string not matching `\d{4}-\d{2}-\d{2}`; for a pattern-matching
string it builds `dt.date(y, m, d)` from the three digit groups, which
yields the date exactly when the components form a valid calendar date and
raises `ValueError` otherwise — e.g. on `"2025-13-40"` — and `preds_cmd`
does not catch that exception. -/
theorem parse_date_arg_behavior :
    parse_date_arg none = .ok none ∧
    parse_date_arg (some "") = .ok none ∧
    (∀ s : String, matchesDatePattern s.data = false → parse_date_arg (some s) = .ok none) ∧
    (∀ s : String, matchesDatePattern s.data = true →
      parse_date_arg (some s) = (mkPyDate (py_year s) (py_month s) (py_day s)).map some) ∧
    parse_date_arg (some "2025-13-40") = .error "ValueError: invalid date" ∧
    preds_cmd_date (some "2025-13-40") ⟨2025, 1, 1⟩ = .error "ValueError: invalid date" := by
  refine ⟨rfl, rfl, fun s hs => ?_, fun s hs => ?_, rfl, rfl⟩
  · simp only [parse_date_arg]
    by_cases he : s = ""
    · rw [if_pos he]
    · rw [if_neg he, if_pos hs]
  · obtain ⟨c1, c2, c3, c4, c5, c6, c7, c8, hdata⟩ := matchesDatePattern_inv hs
    have hne : s ≠ "" := by
      intro he
      rw [he] at hdata
      exact absurd hdata (by simp)
    simp only [parse_date_arg]
    rw [if_neg hne, if_neg (by rw [hs]; simp), hdata]
    simp [py_year, py_month, py_day, hdata]

/-! ## Witnesses -/

/-- Witness for C1: a two-team directory, away on a 3–0 run against a 1–2
home team; the chain stops at step one with winner `"BOS"`, reason
`"last10"`. -/
theorem pick_winner_follows_spec_chain_witness :
    (pick_winner [("BOS", ⟨1, "Celtics"⟩), ("NYK", ⟨2, "Knicks"⟩)]
        (fun tid _ _ => if tid = 1 then [true, true, true] else [true, false, false])
        "BOS" "NYK" ⟨2025, 1, 15⟩).map (fun r => (r.1, r.2.reason)) =
      .ok ("BOS", "last10") := by
  rw [pick_winner_follows_spec_chain [("BOS", ⟨1, "Celtics"⟩), ("NYK", ⟨2, "Knicks"⟩)]
    (fun tid _ _ => if tid = 1 then [true, true, true] else [true, false, false])
    "BOS" "NYK" ⟨2025, 1, 15⟩ ⟨1, "Celtics"⟩ ⟨2, "Knicks"⟩ rfl rfl]
  rfl

/-- Witness for C2 (amended): a non-empty previous mapping, an elapsed TTL
and a failing reload — the error propagates and the state is unchanged. -/
theorem load_team_map_reload_failure_witness :
    load_team_map 21600 (.error "fetch failed") ⟨some [("BOS", ⟨1, "Celtics"⟩)], 0⟩ =
      (.error "fetch failed", ⟨some [("BOS", ⟨1, "Celtics"⟩)], 0⟩) :=
  load_team_map_reload_failure 21600 ⟨some [("BOS", ⟨1, "Celtics"⟩)], 0⟩ "fetch failed"
    (by decide)

/-- Witness for C3: a cache holding the key `(1, 2024, "20250115")` answers
without fetching (even against an unreachable network) and unchanged. -/
theorem fetch_team_recent_wins_cache_witness :
    fetch_team_recent_wins (fun _ _ => .error "no network")
        [((1, 2024, "20250115"), [true, false])] 1 2024 ⟨2025, 1, 15⟩ =
      (.ok [true, false], [((1, 2024, "20250115"), [true, false])], 0) :=
  fetch_team_recent_wins_cache.1 (fun _ _ => .error "no network")
    [((1, 2024, "20250115"), [true, false])] 1 2024 ⟨2025, 1, 15⟩ [true, false] rfl

/-- Witness for C5: chunking `"abcde"` with `maxLen = 2`. -/
theorem chunk_roundtrip_witness :
    1 ≤ 2 ∧ ((chunk 2 "abcde".data).flatten = "abcde".data ∧
      ∀ c ∈ chunk 2 "abcde".data, c.length ≤ 2) :=
  ⟨by decide, chunk_roundtrip 2 (by decide) "abcde".data⟩

/-- Witness for C6 (amended): with `min_apps = 1`, a one-appearance history
that passes the filter indeed has `apps ≥ 1`. -/
theorem weekly_filter_apps_pos_witness :
    1 ≤ weekly_apps [⟨5, 30, none, none, none, none⟩] :=
  weekly_filter_apps_pos.2 1 0 (weekly_apps [⟨5, 30, none, none, none, none⟩])
    (weekly_mins [⟨5, 30, none, none, none, none⟩]) (by decide) (by decide)

/-- Witness for C9: a one-element input whose only player's detail fetch
fails is skipped; the loop returns its rows and the ranked output satisfies
the bounds. -/
theorem compute_weekly_fpl_ranked_witness :
    compute_weekly_fpl [⟨some 1, 3, "A", "B", none⟩] [] (fun _ => .error "offline") 5 5 2 0 =
      .ok (rank_rows 5 []) ∧
    ((rank_rows 5 ([] : List (Pos × WRow × Option DRow))).1 Pos.GK).length ≤ 5 ∧
    List.Sorted wdesc ((rank_rows 5 ([] : List (Pos × WRow × Option DRow))).1 Pos.GK) ∧
    compute_weekly_fpl [⟨some 1, 3, "A", "B", none⟩] [] (fun _ => .error "offline") 5 5 2 0 =
      compute_weekly_fpl [⟨some 1, 3, "A", "B", none⟩] [] (fun _ => .error "offline") 5 5 2 0 :=
  compute_weekly_fpl_ranked [⟨some 1, 3, "A", "B", none⟩] [] (fun _ => .error "offline")
    5 5 2 0 Pos.GK [] rfl

/-- Witness for C7: a two-matchup scoreboard whose first matchup has an
unknown away team: the report has two lines, the first is the inline error
line for that matchup, computed from that matchup alone. -/
theorem preds_lines_partial_failure_witness :
    (preds_lines [("BOS", ⟨1, "C"⟩), ("NYK", ⟨2, "K"⟩)] (fun _ _ _ => [true]) ⟨2025, 1, 15⟩
        [⟨"XXX", "BOS"⟩, ⟨"BOS", "NYK"⟩]).length = 2 ∧
    (preds_lines [("BOS", ⟨1, "C"⟩), ("NYK", ⟨2, "K"⟩)] (fun _ _ _ => [true]) ⟨2025, 1, 15⟩
        [⟨"XXX", "BOS"⟩, ⟨"BOS", "NYK"⟩])[0]? =
      some (prediction_line [("BOS", ⟨1, "C"⟩), ("NYK", ⟨2, "K"⟩)] (fun _ _ _ => [true])
        ⟨2025, 1, 15⟩ ⟨"XXX", "BOS"⟩) ∧
    prediction_line [("BOS", ⟨1, "C"⟩), ("NYK", ⟨2, "K"⟩)] (fun _ _ _ => [true]) ⟨2025, 1, 15⟩
        ⟨"XXX", "BOS"⟩ =
      normalize_abbr "XXX" ++ " @ " ++ normalize_abbr "BOS" ++ "  →  (error: " ++
        "Unknown team abbreviation: XXX" ++ ")" := by
  have h := preds_lines_partial_failure [("BOS", ⟨1, "C"⟩), ("NYK", ⟨2, "K"⟩)]
    (fun _ _ _ => [true]) ⟨2025, 1, 15⟩ [⟨"XXX", "BOS"⟩, ⟨"BOS", "NYK"⟩] 0 ⟨"XXX", "BOS"⟩ rfl
  exact ⟨h.1, h.2.1, h.2.2.1 "Unknown team abbreviation: XXX" rfl⟩

/-- Witness for C10: a well-formed date string parses through
`datetime.date`, and a non-matching string yields `None`. -/
theorem parse_date_arg_behavior_witness :
    parse_date_arg (some "2025-01-15") =
      (mkPyDate (py_year "2025-01-15") (py_month "2025-01-15") (py_day "2025-01-15")).map some ∧
    parse_date_arg (some "hello") = .ok none :=
  ⟨parse_date_arg_behavior.2.2.2.1 "2025-01-15" (by decide),
   parse_date_arg_behavior.2.2.1 "hello" (by decide)⟩

end NBABot
